import Mathlib

/-!
Verification of the FastSync pc-receiver (Rust) against its specification.

Text is modelled as `List Char` (one entry per Unicode scalar value, matching
Rust's `str::chars`), binary data as `List Nat` (one entry per byte).
Every definition in the `FastSync` namespace is a shallow embedding of the
correspondingly named item of the Rust source; definitions whose name starts
with `spec` are stated from the specification's words instead, for
refinement comparisons.
-/

namespace FastSync

/-- Prefix test on character lists, modelling Rust `str::starts_with`. -/
def startsWith : List Char → List Char → Bool
  | [], _ => true
  | _ :: _, [] => false
  | p :: ps, c :: cs => p == c && startsWith ps cs

/-- Substring test, modelling Rust `str::contains` for a literal pattern. -/
def containsSub (pat : List Char) : List Char → Bool
  | [] => pat.isEmpty
  | c :: cs => startsWith pat (c :: cs) || containsSub pat cs

/-- The HTTP status codes actually produced by the handlers. -/
inductive HttpStatus where
  | ok
  | badRequest
deriving DecidableEq

/-! ## Photo upload (src/pc-receiver/src/handlers/photo.rs `upload`,
identical logic in src/pc-receiver/src/main.rs `upload`)

A multipart body is modelled as the list of its fields: (name, bytes) pairs,
in the order they are read off the wire. -/

/-- The multipart field name the upload handler looks for. -/
def dataName : List Char := "data".toList

/-- The loop of `upload`: `image_data` starts as `None` and is overwritten
with `Some(bytes)` every time a field named `data` is seen. -/
def uploadImageData (fields : List (List Char × List Nat)) : Option (List Nat) :=
  fields.foldl (fun acc f => if f.1 == dataName then some f.2 else acc) none

/-- `upload`: returns 200 and schedules a notification carrying the image
bytes when a `data` field was found, 400 (and no notification) otherwise.
The second component is the payload handed to the spawned notification
task (`None` when no notification is constructed). -/
def upload (fields : List (List Char × List Nat)) : HttpStatus × Option (List Nat) :=
  match uploadImageData fields with
  | some d => (HttpStatus.ok, some d)
  | none => (HttpStatus.badRequest, none)

/-- The bytes of the last field named `data`, stated structurally: the
reference point for the last-field-wins behaviour of `upload`. -/
def lastDataField : List (List Char × List Nat) → Option (List Nat)
  | [] => none
  | f :: fs =>
    match lastDataField fs with
    | some b => some b
    | none => if f.1 == dataName then some f.2 else none

/-- Whether some field of the multipart body is named `data`. -/
def hasDataField (fields : List (List Char × List Nat)) : Bool :=
  fields.any (fun f => f.1 == dataName)

/-! ## HTML escaping (sms.rs lines 54-55, clipboard.rs line 59)

The handlers escape with
`s.replace("&", "&amp;").replace("<", "&lt;").replace(">", "&gt;")`. -/

/-- The character list of the entity `&amp;`. -/
def ampE : List Char := ['&', 'a', 'm', 'p', ';']

/-- The character list of the entity `&lt;`. -/
def ltE : List Char := ['&', 'l', 't', ';']

/-- The character list of the entity `&gt;`. -/
def gtE : List Char := ['&', 'g', 't', ';']

/-- Worker for `rreplace`: scan left to right; on a match of `p0 :: ps`
emit `r` and continue after the match (the replacement is not rescanned),
otherwise emit the current character.  This is the semantics of Rust
`str::replace` for a non-empty pattern. -/
def rreplaceAux (p0 : Char) (ps r : List Char) : List Char → List Char
  | [] => []
  | c :: cs =>
    if startsWith (p0 :: ps) (c :: cs) then
      r ++ rreplaceAux p0 ps r (List.drop ps.length cs)
    else
      c :: rreplaceAux p0 ps r cs
termination_by s => s.length
decreasing_by
  all_goals simp_wf
  all_goals omega

/-- Rust `str::replace` (the empty pattern does not occur in the source;
for completeness it leaves the string unchanged). -/
def rreplace (p r s : List Char) : List Char :=
  match p with
  | [] => s
  | p0 :: ps => rreplaceAux p0 ps r s

/-- The escaping used by the SMS and clipboard handlers:
replace `&` first, then `<`, then `>`. -/
def escapeHtml (s : List Char) : List Char :=
  rreplace ['>'] gtE (rreplace ['<'] ltE (rreplace ['&'] ampE s))

/-- The inverse substitutions, applied in reverse order:
replace `&gt;` back first, then `&lt;`, then `&amp;`. -/
def unescapeHtml (s : List Char) : List Char :=
  rreplace ampE ['&'] (rreplace ltE ['<'] (rreplace gtE ['>'] s))

/-- Single-character replacement map characterising `escapeHtml`. -/
def escChar (c : Char) : List Char :=
  if c == '&' then ampE else if c == '<' then ltE else if c == '>' then gtE else [c]

/-- Character-wise form of `escapeHtml`, used to reason about it. -/
def escF : List Char → List Char
  | [] => []
  | c :: cs => escChar c ++ escF cs

/-- `replaceChar a r` replaces every occurrence of the single character `a`
by `r`; characterises `rreplace [a] r`. -/
def replaceChar (a : Char) (r : List Char) : List Char → List Char
  | [] => []
  | c :: cs => (if a == c then r else [c]) ++ replaceChar a r cs

/-- After un-escaping `&gt;` only: `&` and `<` still expanded, `>` raw. -/
def f1Char (c : Char) : List Char :=
  if c == '&' then ampE else if c == '<' then ltE else [c]

/-- Character-wise map of `f1Char` over a string. -/
def f1 : List Char → List Char
  | [] => []
  | c :: cs => f1Char c ++ f1 cs

/-- After additionally un-escaping `&lt;`: only `&` still expanded. -/
def f2Char (c : Char) : List Char :=
  if c == '&' then ampE else [c]

/-- Character-wise map of `f2Char` over a string. -/
def f2 : List Char → List Char
  | [] => []
  | c :: cs => f2Char c ++ f2 cs

/-- Does `cs` start with the tail of one of the three entities
(`amp;`, `lt;`, `gt;`)? -/
def entityTail (cs : List Char) : Bool :=
  startsWith ['a', 'm', 'p', ';'] cs || startsWith ['l', 't', ';'] cs ||
    startsWith ['g', 't', ';'] cs

/-- No raw occurrence of `&`, `<`, `>`: the string contains no `<` and
no `>`, and every `&` begins one of the three escape entities. -/
def escOk : List Char → Bool
  | [] => true
  | c :: cs =>
    if c == '<' || c == '>' then false
    else if c == '&' then entityTail cs && escOk cs
    else escOk cs

/-! ## Notification body previews (clipboard.rs lines 53-59, sms.rs lines 54-55) -/

/-- The ellipsis marker appended by the clipboard handler (three dots). -/
def ellipsis : List Char := ['.', '.', '.']

/-- clipboard.rs lines 53-57: truncate to 100 characters and append an
ellipsis when the character count exceeds 100, else keep the text. -/
def clipboardPreview (t : List Char) : List Char :=
  if 100 < t.length then t.take 100 ++ ellipsis else t

/-- clipboard.rs line 59: the text actually embedded in the toast markup
is the escaped preview. -/
def clipboardRenderedBody (t : List Char) : List Char :=
  escapeHtml (clipboardPreview t)

/-- sms.rs line 55: the SMS content is escaped and embedded in full;
no truncation is applied. -/
def smsRenderedBody (content : List Char) : List Char :=
  escapeHtml content

/-- Modelled from the spec: the body preview property of section 3 and
section 8 — truncate to at most 100 characters plus an ellipsis marker
iff the character count exceeds 100, else the original text verbatim. -/
def specPreview (t : List Char) : List Char :=
  if 100 < t.length then t.take 100 ++ ellipsis else t

/-! ## SMS handler (src/pc-receiver/src/handlers/sms.rs) -/

/-- The JSON payload accepted by /sms. -/
structure SmsPayload where
  sender : List Char
  content : List Char
  code : List Char

/-- The ordered action set built by `show_sms_notification` (lines 57-69):
copy-content always, copy-code only for a non-empty `code`, ignore always.
Each action is a (label, action id) pair exactly as in the XML. -/
def smsActions (p : SmsPayload) : List (List Char × List Char) :=
  [("复制原文".toList, "copy_content".toList)] ++
    (if p.code.isEmpty then [] else [("复制验证码".toList, "copy_code".toList)]) ++
    [("忽略".toList, "ignore".toList)]

/-- `receive_sms` (lines 34-42): once the JSON decoded, the handler shows
the notification, logs a failure, and returns 200 either way.  The result
of `show_sms_notification` is passed in as `r`. -/
def receive_sms (_p : SmsPayload) (r : Except (List Char) Unit) : HttpStatus :=
  match r with
  | Except.error _ => HttpStatus.ok
  | Except.ok _ => HttpStatus.ok

/-! ## Clipboard handler (src/pc-receiver/src/handlers/clipboard.rs) -/

/-- The JSON payload accepted by /clipboard. -/
structure ClipboardPayload where
  text : List Char
  timestamp : Int

/-- `receive_clipboard` (lines 36-45): same shape as `receive_sms` —
a notification failure is logged and 200 is returned regardless. -/
def receive_clipboard (_p : ClipboardPayload) (r : Except (List Char) Unit) : HttpStatus :=
  match r with
  | Except.error _ => HttpStatus.ok
  | Except.ok _ => HttpStatus.ok

/-! ## Photo copy action (photo.rs `copy_to_clipboard`, lines 156-206)

The two external decoders are parameters of the embedding. -/

/-- Decoder-reported dimensions, `zune_jpeg::JpegDecoder::info`. -/
structure ZuneInfo where
  width : Nat
  height : Nat

/-- Outcome of the zune-jpeg stage: `decode()` followed by `info()`. -/
inductive ZuneOutcome where
  | ok (pixels : List Nat) (info : Option ZuneInfo)
  | err

/-- Outcome of `image::load_from_memory(..)` followed by `to_rgba8()`:
an interleaved RGBA8 buffer with its dimensions. -/
structure RgbaImage where
  width : Nat
  height : Nat
  bytes : List Nat

/-- The image handed to `arboard` (width, height, RGBA bytes) together
with the name of the decoder that produced it, as logged by
`write_to_clipboard`. -/
structure ClipImage where
  width : Nat
  height : Nat
  bytes : List Nat
  decoder : List Char

/-- photo.rs lines 167-171: `pixels.chunks_exact(3)` with an appended
opaque alpha byte; an incomplete trailing chunk is discarded. -/
def rgbToRgba : List Nat → List Nat
  | r :: g :: b :: rest => r :: g :: b :: 255 :: rgbToRgba rest
  | _ => []

/-- photo.rs lines 188-204: the image-rs fallback stage. -/
def imageFallback (imageRs : List Nat → Except (List Char) RgbaImage)
    (data : List Nat) : Option ClipImage :=
  match imageRs data with
  | Except.ok img => some ⟨img.width, img.height, img.bytes, "image-rs".toList⟩
  | Except.error _ => none

/-- `copy_to_clipboard`: try zune-jpeg first; when it decodes and reports
dimensions, normalise RGB to RGBA and hand that to the clipboard; in every
other case fall back to the image-rs stage.  Returns the image written to
the clipboard, or `none` when both stages fail. -/
def copy_to_clipboard (zune : List Nat → ZuneOutcome)
    (imageRs : List Nat → Except (List Char) RgbaImage)
    (data : List Nat) : Option ClipImage :=
  match zune data with
  | ZuneOutcome.ok pixels (some info) =>
      some ⟨info.width, info.height, rgbToRgba pixels, "zune-jpeg".toList⟩
  | ZuneOutcome.ok _ none => imageFallback imageRs data
  | ZuneOutcome.err => imageFallback imageRs data

/-- Every fourth byte (the alpha channel) of an RGBA buffer is 255. -/
def alphaOpaque : List Nat → Bool
  | _ :: _ :: _ :: a :: rest => a == 255 && alphaOpaque rest
  | _ => true

/-- A concrete zune-jpeg stage used to instantiate the decode theorem:
decodes every payload to a single RGB pixel. -/
def zuneW : List Nat → ZuneOutcome :=
  fun _ => ZuneOutcome.ok [9, 9, 9] (some ⟨1, 1⟩)

/-- A concrete image-rs stage used to instantiate the decode theorem:
always fails. -/
def imgW : List Nat → Except (List Char) RgbaImage :=
  fun _ => Except.error []

/-- A zune-jpeg stage that fails, as it does on any non-JPEG payload. -/
def zuneErrW : List Nat → ZuneOutcome :=
  fun _ => ZuneOutcome.err

/-- An image-rs stage standing for `to_rgba8` on a fully transparent
1 by 1 image: the source's alpha channel (here 0) is preserved. -/
def imgTransparentW : List Nat → Except (List Char) RgbaImage :=
  fun _ => Except.ok ⟨1, 1, [0, 0, 0, 0]⟩

/-! ## Local IP selection (src/pc-receiver/src/tray.rs `get_best_local_ip`,
lines 106-142)

An interface is a (name, ip) pair; the ip is taken in its textual form,
as produced by `ip.to_string()` in the source. -/

/-- The virtual-adapter name fragments excluded by `get_best_local_ip`
(tray.rs lines 118-123). -/
def isVirtualName (nameLower : List Char) : Bool :=
  containsSub ("wsl".toList) nameLower ||
    containsSub ("docker".toList) nameLower ||
    containsSub ("vethernet".toList) nameLower ||
    containsSub ("tailscale".toList) nameLower ||
    containsSub ("meta".toList) nameLower ||
    containsSub ("loopback".toList) nameLower

/-- The loopback address prefix. -/
def pre127 : List Char := "127.".toList

/-- The link-local auto-configuration prefix. -/
def pre169254 : List Char := "169.254.".toList

/-- The highest-ranked private prefix. -/
def pre192168 : List Char := "192.168.".toList

/-- The 10.* private prefix. -/
def pre10 : List Char := "10.".toList

/-- The 172.* prefix. -/
def pre172 : List Char := "172.".toList

/-- tray.rs lines 125-131: 192.168.* ranks 3, 10.*/172.* rank 2, rest 1. -/
def ipPriority (ip : List Char) : Nat :=
  if startsWith pre192168 ip then 3
  else if startsWith pre10 ip || startsWith pre172 ip then 2
  else 1

/-- The candidate loop (tray.rs lines 111-134): skip loopback and
link-local addresses, and record (priority, non-virtual flag, ip). -/
def candidates : List (List Char × List Char) → List (Nat × Bool × List Char)
  | [] => []
  | (name, ip) :: rest =>
    if startsWith pre127 ip || startsWith pre169254 ip then
      candidates rest
    else
      (ipPriority ip, !isVirtualName (List.map Char.toLower name), ip) :: candidates rest

/-- `compare` on Nat as used by Rust `Ord::cmp` for integers. -/
def cmpNat (x y : Nat) : Ordering :=
  if x < y then Ordering.lt else if x = y then Ordering.eq else Ordering.gt

/-- Rust `bool::cmp`: false is less than true. -/
def cmpBool (x y : Bool) : Ordering :=
  match x, y with
  | false, true => Ordering.lt
  | true, false => Ordering.gt
  | _, _ => Ordering.eq

/-- The comparator of tray.rs lines 136-139:
`b.0.cmp(&a.0).then(b.1.cmp(&a.1))` — descending by priority, then
non-virtual before virtual. -/
def candCmp (a b : Nat × Bool × List Char) : Ordering :=
  (cmpNat b.1 a.1).then (cmpBool b.2.1 a.2.1)

/-- Stable insertion used to model Rust's stable `slice::sort_by`:
`x` (the earlier element) goes before every element it does not compare
strictly greater than. -/
def insertStable (x : Nat × Bool × List Char) :
    List (Nat × Bool × List Char) → List (Nat × Bool × List Char)
  | [] => [x]
  | y :: ys => if candCmp y x = Ordering.lt then y :: insertStable x ys else x :: y :: ys

/-- Stable sort by `candCmp`, modelling `candidates.sort_by(..)`. -/
def sortCands : List (Nat × Bool × List Char) → List (Nat × Bool × List Char)
  | [] => []
  | x :: xs => insertStable x (sortCands xs)

/-- `get_best_local_ip`, parameterised by the interface list that
`list_afinet_netifas()` would return: sort the candidates and take the
ip of the first one. -/
def get_best_local_ip (interfaces : List (List Char × List Char)) : Option (List Char) :=
  (sortCands (candidates interfaces)).head?.map (fun c => c.2.2)

/-- The first element of the list that the comparator places first:
recursion mirroring `(sortCands cl).head?`. -/
def bestCode : List (Nat × Bool × List Char) → Option (Nat × Bool × List Char)
  | [] => none
  | x :: xs =>
    match bestCode xs with
    | none => some x
    | some m => if candCmp m x = Ordering.lt then some m else some x

/-- Modelled from the spec: exclusion of loopback and link-local
auto-configuration ranges. -/
def specExcluded (ip : List Char) : Bool :=
  startsWith pre127 ip || startsWith pre169254 ip

/-- Modelled from the spec: rank by prefix — private 192.168.* highest,
private 10.*/172.* next, anything else lowest. -/
def specRank (ip : List Char) : Nat :=
  if startsWith pre192168 ip then 2
  else if startsWith pre10 ip || startsWith pre172 ip then 1
  else 0

/-- Modelled from the spec: the (rank, non-virtual) key of an interface;
the known virtual-adapter fragments are those of `isVirtualName`. -/
def specKey (ni : List Char × List Char) : Nat × Bool :=
  (specRank ni.2, !isVirtualName (List.map Char.toLower ni.1))

/-- Modelled from the spec: interface `a` is strictly preferred to `b` —
higher rank, or equal rank with `a` non-virtual and `b` virtual. -/
def specBeats (a b : List Char × List Char) : Bool :=
  decide ((specKey b).1 < (specKey a).1) ||
    ((specKey a).1 == (specKey b).1 && ((specKey a).2 && !(specKey b).2))

/-- Modelled from the spec: the first-encountered most-preferred
interface — ties broken in favour of the earlier element. -/
def specFirstBest : List (List Char × List Char) → Option (List Char × List Char)
  | [] => none
  | x :: xs =>
    match specFirstBest xs with
    | none => some x
    | some m => if specBeats m x then some m else some x

/-- Modelled from the spec: the selection policy of section 4.5 —
exclude loopback/link-local, then pick the first-encountered interface
of maximal (rank, non-virtual) key, and return its address. -/
def specSelectIp (interfaces : List (List Char × List Char)) : Option (List Char) :=
  (specFirstBest (interfaces.filter (fun ni => !specExcluded ni.2))).map (fun ni => ni.2)

/-- Mapping an interface to the candidate triple the code builds for it. -/
def toCand (ni : List Char × List Char) : Nat × Bool × List Char :=
  (ipPriority ni.2, !isVirtualName (List.map Char.toLower ni.1), ni.2)

/-- The interface set of the spec's worked example. -/
def exampleInterfaces : List (List Char × List Char) :=
  [("eth0".toList, "192.168.1.5".toList),
   ("docker0".toList, "172.17.0.1".toList),
   ("lo".toList, "127.0.0.1".toList)]

/-! ## Service discovery (src/pc-receiver/src/main.rs `start_mdns_broadcast`,
lines 40-69) -/

/-- The fields of the `ServiceInfo` registered with the mDNS daemon. -/
structure ServiceRecord where
  serviceType : List Char
  instanceName : List Char
  hostName : List Char
  ip : List Char
  port : Nat

/-- `start_mdns_broadcast` as a function of the reported hostname: the
record it registers.  The address is the literal string `0.0.0.0`
(main.rs line 50). -/
def start_mdns_broadcast (hostname : List Char) : ServiceRecord :=
  { serviceType := "_photosync._tcp.local.".toList
    instanceName := hostname ++ "_fastsync".toList
    hostName := (hostname ++ "_fastsync".toList) ++ ".local.".toList
    ip := "0.0.0.0".toList
    port := 3000 }

/-! ## Notification expiry (photo.rs lines 113-121, sms.rs lines 92-99,
clipboard.rs lines 83-90)

`now` is the current Unix epoch time in milliseconds. -/

/-- photo.rs lines 113-115: expiry ticks for a photo notification. -/
def photoExpirationTicks (now : Int) : Int :=
  (now + 30000) * 10000 + 116444736000000000

/-- sms.rs lines 92-94: expiry ticks for an SMS notification. -/
def smsExpirationTicks (now : Int) : Int :=
  (now + 60000) * 10000 + 116444736000000000

/-- clipboard.rs lines 83-85: expiry ticks for a clipboard notification. -/
def clipboardExpirationTicks (now : Int) : Int :=
  (now + 30000) * 10000 + 116444736000000000

/-- Modelled from the spec: the exact conversion from Unix epoch
milliseconds to the Windows `DateTime.UniversalTime` representation
(100 ns ticks since 1601-01-01; the offset is 11644473600 seconds). -/
def winTicksOfUnixMillis (m : Int) : Int :=
  m * 10000 + 116444736000000000

/-! ## Lemmas about the upload handler -/

/-- Folding the upload loop from any accumulator yields the last `data`
field, or the accumulator when there is none. -/
theorem uploadFold_eq : ∀ (fields : List (List Char × List Nat)) (acc : Option (List Nat)),
    fields.foldl (fun acc f => if f.1 == dataName then some f.2 else acc) acc =
      (match lastDataField fields with
       | some b => some b
       | none => acc)
  | [], _ => rfl
  | f :: fs, acc => by
    simp only [List.foldl_cons, lastDataField]
    rw [uploadFold_eq fs]
    cases hl : lastDataField fs with
    | some b => simp
    | none =>
      by_cases hf : f.1 == dataName <;> simp [hf]

/-- The loop result is exactly the last `data` field's bytes. -/
theorem uploadImageData_eq (fields : List (List Char × List Nat)) :
    uploadImageData fields = lastDataField fields := by
  unfold uploadImageData
  rw [uploadFold_eq fields none]
  cases lastDataField fields <;> rfl

/-- No `data` field iff the loop ends with no image data. -/
theorem lastDataField_none_iff : ∀ fields : List (List Char × List Nat),
    (lastDataField fields = none ↔ hasDataField fields = false)
  | [] => by simp [lastDataField, hasDataField]
  | f :: fs => by
    have ih := lastDataField_none_iff fs
    simp only [lastDataField, hasDataField, List.any_cons] at *
    cases hl : lastDataField fs with
    | some b => simp [hl] at ih; simp [ih]
    | none =>
      simp [hl] at ih
      by_cases hf : f.1 == dataName
      · simp [hf]
      · simpa [hf] using ih

/-- The notification payload of `upload` is the loop result. -/
theorem upload_snd (fields : List (List Char × List Nat)) :
    (upload fields).2 = uploadImageData fields := by
  unfold upload
  cases uploadImageData fields <;> rfl

/-! ## Lemmas about the RGB to RGBA normalisation -/

/-- The RGBA buffer built from an RGB buffer has four bytes per complete
three-byte chunk. -/
theorem rgbToRgba_length : ∀ p : List Nat, (rgbToRgba p).length = 4 * (p.length / 3)
  | [] => rfl
  | [_] => by simp [rgbToRgba]
  | [_, _] => by simp [rgbToRgba]
  | r :: g :: b :: rest => by
    show (r :: g :: b :: 255 :: rgbToRgba rest).length = 4 * ((rest.length + 3) / 3)
    have ih := rgbToRgba_length rest
    simp only [List.length_cons, ih]
    omega

/-- Every alpha byte written by the normalisation is 255. -/
theorem alphaOpaque_rgbToRgba : ∀ p : List Nat, alphaOpaque (rgbToRgba p) = true
  | [] => rfl
  | [_] => rfl
  | [_, _] => rfl
  | r :: g :: b :: rest => by
    show alphaOpaque (r :: g :: b :: 255 :: rgbToRgba rest) = true
    have ih := alphaOpaque_rgbToRgba rest
    simp [alphaOpaque, ih]

/-! ## Lemmas about escaping and un-escaping -/

/-- Replacement of a single-character pattern is the character-wise map. -/
theorem rreplaceAux_single (a : Char) (r : List Char) :
    ∀ s, rreplaceAux a [] r s = replaceChar a r s
  | [] => by simp [rreplaceAux, replaceChar]
  | c :: cs => by
    have ih := rreplaceAux_single a r cs
    by_cases h : a = c
    · subst h
      simp [rreplaceAux, startsWith, replaceChar, ih]
    · simp [rreplaceAux, startsWith, replaceChar, ih, h]

/-- `replaceChar` distributes over concatenation. -/
theorem replaceChar_append (a : Char) (r : List Char) :
    ∀ x y, replaceChar a r (x ++ y) = replaceChar a r x ++ replaceChar a r y
  | [], _ => rfl
  | c :: cs, y => by
    simp [replaceChar, replaceChar_append a r cs y]

/-- The composite of the three single-character replacements acts on one
character as `escChar`. -/
theorem escChar_step (c : Char) :
    replaceChar '>' gtE (replaceChar '<' ltE (if ('&' == c : Bool) then ampE else [c])) =
      escChar c := by
  by_cases h1 : c = '&'
  · subst h1
    simp [replaceChar, escChar, ampE, ltE, gtE]
  · by_cases h2 : c = '<'
    · subst h2
      simp [replaceChar, escChar, ampE, ltE, gtE]
    · by_cases h3 : c = '>'
      · subst h3
        simp [replaceChar, escChar, ampE, ltE, gtE]
      · simp [replaceChar, escChar, h1, h2, h3, Ne.symm h1, Ne.symm h2, Ne.symm h3]

/-- The handlers' chained `replace` calls equal the character-wise
escaping map. -/
theorem escapeHtml_eq_escF : ∀ s, escapeHtml s = escF s
  | [] => by simp [escapeHtml, rreplace, rreplaceAux, escF]
  | c :: cs => by
    have ih := escapeHtml_eq_escF cs
    unfold escapeHtml at *
    simp only [rreplace, rreplaceAux_single] at *
    simp only [replaceChar, replaceChar_append, escF]
    rw [ih, escChar_step]

/-- Un-escaping `&gt;` in an escaped string: the only occurrences of the
pattern are the expansions of `>`. -/
theorem unescape_gt : ∀ s, rreplaceAux '&' ['g', 't', ';'] ['>'] (escF s) = f1 s
  | [] => by simp [escF, rreplaceAux, f1]
  | c :: cs => by
    have ih := unescape_gt cs
    by_cases h1 : c = '&'
    · subst h1
      simp [escF, escChar, ampE, f1, f1Char, rreplaceAux, startsWith, ih]
    · by_cases h2 : c = '<'
      · subst h2
        simp [escF, escChar, ltE, f1, f1Char, rreplaceAux, startsWith, ih]
      · by_cases h3 : c = '>'
        · subst h3
          simp [escF, escChar, gtE, f1, f1Char, rreplaceAux, startsWith, ih]
        · simp [escF, escChar, f1, f1Char, rreplaceAux, startsWith, ih,
            h1, h2, h3, Ne.symm h1, Ne.symm h2, Ne.symm h3]

/-- Un-escaping `&lt;` after `&gt;`: the only occurrences of the pattern
are the expansions of `<`. -/
theorem unescape_lt : ∀ s, rreplaceAux '&' ['l', 't', ';'] ['<'] (f1 s) = f2 s
  | [] => by simp [f1, rreplaceAux, f2]
  | c :: cs => by
    have ih := unescape_lt cs
    by_cases h1 : c = '&'
    · subst h1
      simp [f1, f1Char, ampE, f2, f2Char, rreplaceAux, startsWith, ih]
    · by_cases h2 : c = '<'
      · subst h2
        simp [f1, f1Char, ltE, f2, f2Char, rreplaceAux, startsWith, ih]
      · simp [f1, f1Char, f2, f2Char, rreplaceAux, startsWith, ih,
          h1, h2, Ne.symm h1, Ne.symm h2]

/-- Un-escaping `&amp;` last restores the original characters. -/
theorem unescape_amp : ∀ s, rreplaceAux '&' ['a', 'm', 'p', ';'] ['&'] (f2 s) = s
  | [] => by simp [f2, rreplaceAux]
  | c :: cs => by
    have ih := unescape_amp cs
    by_cases h1 : c = '&'
    · subst h1
      simp [f2, f2Char, ampE, rreplaceAux, startsWith, ih]
    · simp [f2, f2Char, rreplaceAux, startsWith, ih, h1, Ne.symm h1]

/-- The escaped string has no raw `&`, `<` or `>`. -/
theorem escOk_escF : ∀ s, escOk (escF s) = true
  | [] => rfl
  | c :: cs => by
    have ih := escOk_escF cs
    by_cases h1 : c = '&'
    · subst h1
      simp [escF, escChar, ampE, escOk, entityTail, startsWith, ih]
    · by_cases h2 : c = '<'
      · subst h2
        simp [escF, escChar, ltE, escOk, entityTail, startsWith, ih]
      · by_cases h3 : c = '>'
        · subst h3
          simp [escF, escChar, gtE, escOk, entityTail, startsWith, ih]
        · simp [escF, escChar, escOk, ih, h1, h2, h3, Ne.symm h1, Ne.symm h2, Ne.symm h3]

/-- A string of 101 letters `a` escapes to itself. -/
theorem escapeHtml_replicate_a :
    escapeHtml (List.replicate 101 'a') = List.replicate 101 'a' := by
  rw [escapeHtml_eq_escF]
  decide

/-! ## Lemmas about the IP selection -/

/-- The head of a stable insertion: the old head survives only when it
compares strictly less than the inserted element. -/
theorem insertStable_head (x : Nat × Bool × List Char) :
    ∀ s : List (Nat × Bool × List Char),
      (insertStable x s).head? =
        (match s with
         | [] => some x
         | y :: _ => if candCmp y x = Ordering.lt then some y else some x)
  | [] => rfl
  | y :: ys => by
    simp only [insertStable]
    by_cases h : candCmp y x = Ordering.lt <;> simp [h]

/-- The head of the stable sort is computed by the `bestCode` fold. -/
theorem sortCands_head : ∀ cl : List (Nat × Bool × List Char),
    (sortCands cl).head? = bestCode cl
  | [] => rfl
  | x :: xs => by
    have ih := sortCands_head xs
    simp only [sortCands, bestCode]
    rw [insertStable_head, ← ih]
    cases hs : sortCands xs <;> simp

/-- The candidate list is the filtered interface list mapped to triples. -/
theorem candidates_eq : ∀ interfaces : List (List Char × List Char),
    candidates interfaces =
      (interfaces.filter (fun ni => !specExcluded ni.2)).map toCand
  | [] => rfl
  | (name, ip) :: rest => by
    have ih := candidates_eq rest
    cases h1 : startsWith pre127 ip <;> cases h2 : startsWith pre169254 ip <;>
      simp [candidates, specExcluded, List.filter_cons, h1, h2, ih, toCand]

/-- The code's priority is the spec's rank shifted by one. -/
theorem ipPriority_specRank (ip : List Char) : ipPriority ip = specRank ip + 1 := by
  unfold ipPriority specRank
  by_cases h1 : startsWith pre192168 ip = true <;>
    by_cases h2 : (startsWith pre10 ip || startsWith pre172 ip) = true <;>
      simp [h1, h2]

/-- The code's comparator sorts `toCand m` strictly before `toCand x`
exactly when the spec strictly prefers `m` to `x`. -/
theorem beats_iff (m x : List Char × List Char) :
    (candCmp (toCand m) (toCand x) = Ordering.lt) ↔ specBeats m x = true := by
  unfold candCmp toCand specBeats specKey
  rw [ipPriority_specRank, ipPriority_specRank]
  unfold cmpNat cmpBool
  cases hm : isVirtualName (List.map Char.toLower m.1) <;>
    cases hx : isVirtualName (List.map Char.toLower x.1) <;>
      by_cases hlt : specRank x.2 + 1 < specRank m.2 + 1 <;>
        by_cases heq : specRank x.2 + 1 = specRank m.2 + 1 <;>
          simp [hlt, heq, Ordering.then] <;> omega

/-- `bestCode` over the mapped candidates is `specFirstBest` mapped. -/
theorem bestCode_map : ∀ ds : List (List Char × List Char),
    bestCode (ds.map toCand) = (specFirstBest ds).map toCand
  | [] => rfl
  | x :: xs => by
    have ih := bestCode_map xs
    simp only [List.map_cons, bestCode, specFirstBest, ih]
    cases hs : specFirstBest xs with
    | none => simp
    | some m =>
      have hb := beats_iff m x
      by_cases h : specBeats m x = true
      · simp [h, hb.mpr h]
      · have hnb : ¬ candCmp (toCand m) (toCand x) = Ordering.lt := fun hc => h (hb.mp hc)
        simp [h, hnb]

/-! ## Claim theorems -/

/-- C1: POST /upload returns 200 iff the multipart body has a field named
`data`; with no such field it returns 400 and constructs no notification. -/
theorem c1_upload_status (fields : List (List Char × List Nat)) :
    ((upload fields).1 = HttpStatus.ok ↔ hasDataField fields = true) ∧
      ((upload fields).1 = HttpStatus.badRequest ↔ hasDataField fields = false) ∧
      ((upload fields).2 = none ↔ hasDataField fields = false) := by
  have hni := lastDataField_none_iff fields
  have heq := uploadImageData_eq fields
  unfold upload
  rw [heq]
  cases hd : hasDataField fields with
  | false =>
    rw [hni.mpr hd]
    simp
  | true =>
    cases hl : lastDataField fields with
    | none => rw [hni.mp hl] at hd; cases hd
    | some b => simp

/-- C10: with several `data` fields the upload handler keeps the bytes of
the last one, and a present-but-empty `data` field still yields 200 with
an empty payload. -/
theorem c10_upload_last_field :
    (∀ fields : List (List Char × List Nat), (upload fields).2 = lastDataField fields) ∧
      upload [(dataName, ([] : List Nat))] = (HttpStatus.ok, some []) := by
  constructor
  · intro fields
    rw [upload_snd, uploadImageData_eq]
  · rfl

/-- C4: for every decoded /sms or /clipboard submission the handler
answers 200 whether or not showing the notification succeeded. -/
theorem c4_ingestion_always_ok (p : SmsPayload) (q : ClipboardPayload)
    (r s : Except (List Char) Unit) :
    receive_sms p r = HttpStatus.ok ∧ receive_clipboard q s = HttpStatus.ok := by
  cases r <;> cases s <;> exact ⟨rfl, rfl⟩

/-- C5: the SMS action set contains copy_code iff `code` is non-empty,
and always contains copy_content and ignore. -/
theorem c5_sms_actions (p : SmsPayload) :
    ((smsActions p).map Prod.snd =
        if p.code.isEmpty then ["copy_content".toList, "ignore".toList]
        else ["copy_content".toList, "copy_code".toList, "ignore".toList]) ∧
      "copy_content".toList ∈ (smsActions p).map Prod.snd ∧
      "ignore".toList ∈ (smsActions p).map Prod.snd ∧
      ("copy_code".toList ∈ (smsActions p).map Prod.snd ↔ p.code ≠ []) := by
  cases hc : p.code with
  | nil =>
    refine ⟨?_, ?_, ?_, ?_⟩ <;> simp [smsActions, hc]
  | cons c cs =>
    refine ⟨?_, ?_, ?_, ?_⟩ <;> simp [smsActions, hc]

/-- C2 counterexample: an SMS content of 101 characters is rendered in
full (101 characters, no ellipsis), while the claimed preview rule would
truncate it to 100 characters plus the marker. -/
theorem c2_sms_truncation_counterexample :
    smsRenderedBody (List.replicate 101 'a') = List.replicate 101 'a' ∧
      100 < (List.replicate 101 'a').length ∧
      smsRenderedBody (List.replicate 101 'a') ≠ specPreview (List.replicate 101 'a') := by
  have h : smsRenderedBody (List.replicate 101 'a') = List.replicate 101 'a' :=
    escapeHtml_replicate_a
  refine ⟨h, by decide, ?_⟩
  rw [h]
  decide

/-- C2 amended: the clipboard preview is truncated to 100 characters plus
an ellipsis iff the character count exceeds 100 (else verbatim), and is
then escaped; the SMS content is escaped but embedded in full, with no
truncation (a 101-character SMS body renders at its full length). -/
theorem c2_preview_amended :
    (∀ t, clipboardPreview t = specPreview t) ∧
      (∀ t, clipboardRenderedBody t = escapeHtml (specPreview t)) ∧
      (∀ t, smsRenderedBody t = escapeHtml t) ∧
      (smsRenderedBody (List.replicate 101 'a')).length = 101 := by
  refine ⟨fun _ => rfl, fun _ => rfl, fun _ => rfl, ?_⟩
  rw [show smsRenderedBody (List.replicate 101 'a') = List.replicate 101 'a' from
    escapeHtml_replicate_a]
  decide

/-- C6: the escaped text contains no raw `&`, `<` or `>` (every `&`
starts an escape entity, `<` and `>` do not occur), and applying the
inverse substitutions in reverse order restores the original text. -/
theorem c6_escape_roundtrip (s : List Char) :
    escOk (escapeHtml s) = true ∧ unescapeHtml (escapeHtml s) = s := by
  rw [escapeHtml_eq_escF]
  constructor
  · exact escOk_escF s
  · show rreplace ampE ['&'] (rreplace ltE ['<'] (rreplace gtE ['>'] (escF s))) = s
    rw [show ∀ x, rreplace gtE ['>'] x = rreplaceAux '&' ['g', 't', ';'] ['>'] x from
      fun _ => rfl]
    rw [unescape_gt]
    rw [show ∀ x, rreplace ltE ['<'] x = rreplaceAux '&' ['l', 't', ';'] ['<'] x from
      fun _ => rfl]
    rw [unescape_lt]
    rw [show ∀ x, rreplace ampE ['&'] x = rreplaceAux '&' ['a', 'm', 'p', ';'] ['&'] x from
      fun _ => rfl]
    rw [unescape_amp]

/-- C7: `get_best_local_ip` implements the spec's selection policy —
exclude loopback and link-local addresses, rank 192.168.* over 10.*/172.*
over the rest, prefer non-virtual adapter names within a rank, break ties
by first-encountered order — and on the spec's example interface set it
selects 192.168.1.5. -/
theorem c7_ip_selection :
    (∀ interfaces, get_best_local_ip interfaces = specSelectIp interfaces) ∧
      get_best_local_ip exampleInterfaces = some ("192.168.1.5".toList) := by
  constructor
  · intro interfaces
    unfold get_best_local_ip specSelectIp
    rw [candidates_eq, sortCands_head, bestCode_map]
    cases specFirstBest (interfaces.filter (fun ni => !specExcluded ni.2)) <;>
      simp [toCand]
  · decide

/-- C8 counterexample: the registered record's address is the literal
`0.0.0.0`, not the selected local IP (which for the spec's example
interface set is 192.168.1.5). -/
theorem c8_ip_counterexample :
    (start_mdns_broadcast ("myhost".toList)).ip = "0.0.0.0".toList ∧
      get_best_local_ip exampleInterfaces = some ("192.168.1.5".toList) ∧
      (start_mdns_broadcast ("myhost".toList)).ip ≠ "192.168.1.5".toList := by
  refine ⟨rfl, by decide, by decide⟩

/-- C8 amended: the discovery record has service type
`_photosync._tcp.local.`, instance name `hostname` + `_fastsync`, host
name instance + `.local.`, port 3000, and the fixed address `0.0.0.0`
(not the selected local IP). -/
theorem c8_record_amended (hostname : List Char) :
    (start_mdns_broadcast hostname).serviceType = "_photosync._tcp.local.".toList ∧
      (start_mdns_broadcast hostname).instanceName = hostname ++ "_fastsync".toList ∧
      (start_mdns_broadcast hostname).hostName =
        (start_mdns_broadcast hostname).instanceName ++ ".local.".toList ∧
      (start_mdns_broadcast hostname).ip = "0.0.0.0".toList ∧
      (start_mdns_broadcast hostname).port = 3000 :=
  ⟨rfl, rfl, rfl, rfl, rfl⟩

/-- C9: every handler's expiry is the exact Windows-tick image of
now + 30000 ms (photo, clipboard) or now + 60000 ms (SMS), and the
conversion itself is exact (injective). -/
theorem c9_expiration (now : Int) :
    photoExpirationTicks now = winTicksOfUnixMillis (now + 30000) ∧
      clipboardExpirationTicks now = winTicksOfUnixMillis (now + 30000) ∧
      smsExpirationTicks now = winTicksOfUnixMillis (now + 60000) ∧
      (∀ m1 m2 : Int, winTicksOfUnixMillis m1 = winTicksOfUnixMillis m2 ↔ m1 = m2) := by
  refine ⟨rfl, rfl, rfl, fun m1 m2 => ?_⟩
  unfold winTicksOfUnixMillis
  omega

/-- C3 amended: the `copy` action tries the zune-jpeg stage first and
hands its RGB-to-RGBA normalisation (with opaque alpha) to the clipboard
when it decodes with reported dimensions; only otherwise does it fall
back to the image-rs stage, whose `to_rgba8` buffer is handed over
unchanged (so opaque alpha is guaranteed on the zune-jpeg stage only);
and whenever either stage produced the image, the buffer handed to the
clipboard has length width * height * 4.  The two hypotheses are the
decoder contracts: zune-jpeg yields 3 bytes per pixel, image-rs (after
`to_rgba8`) 4 bytes per pixel. -/
theorem c3_copy_two_stage (zune : List Nat → ZuneOutcome)
    (imageRs : List Nat → Except (List Char) RgbaImage) (data : List Nat)
    (hz : ∀ px i, zune data = ZuneOutcome.ok px (some i) →
      px.length = i.width * i.height * 3)
    (hi : ∀ img, imageRs data = Except.ok img →
      img.bytes.length = img.width * img.height * 4) :
    (∀ px i, zune data = ZuneOutcome.ok px (some i) →
        copy_to_clipboard zune imageRs data =
          some ⟨i.width, i.height, rgbToRgba px, "zune-jpeg".toList⟩ ∧
          alphaOpaque (rgbToRgba px) = true) ∧
      (zune data = ZuneOutcome.err →
        copy_to_clipboard zune imageRs data = imageFallback imageRs data) ∧
      (∀ c, copy_to_clipboard zune imageRs data = some c →
        c.bytes.length = c.width * c.height * 4) := by
  refine ⟨?_, ?_, ?_⟩
  · intro px i h
    unfold copy_to_clipboard
    rw [h]
    exact ⟨rfl, alphaOpaque_rgbToRgba px⟩
  · intro h
    unfold copy_to_clipboard
    rw [h]
  · intro c hc
    unfold copy_to_clipboard at hc
    cases hzd : zune data with
    | ok px info =>
      cases info with
      | some i =>
        rw [hzd] at hc
        cases hc
        have hlen := hz px i hzd
        rw [rgbToRgba_length, hlen]
        have h3 : i.width * i.height * 3 / 3 = i.width * i.height := by
          omega
        rw [h3]
        ring
      | none =>
        rw [hzd] at hc
        unfold imageFallback at hc
        cases him : imageRs data with
        | ok img =>
          rw [him] at hc
          cases hc
          exact hi img him
        | error e => rw [him] at hc; cases hc
    | err =>
      rw [hzd] at hc
      unfold imageFallback at hc
      cases him : imageRs data with
      | ok img =>
        rw [him] at hc
        cases hc
        exact hi img him
      | error e => rw [him] at hc; cases hc

/-- C3 witness: the decode theorem instantiated at the concrete stages
`zuneW` and `imgW` on the empty payload. -/
theorem c3_copy_two_stage_witness :
    (∀ px i, zuneW [] = ZuneOutcome.ok px (some i) →
        copy_to_clipboard zuneW imgW [] =
          some ⟨i.width, i.height, rgbToRgba px, "zune-jpeg".toList⟩ ∧
          alphaOpaque (rgbToRgba px) = true) ∧
      (zuneW [] = ZuneOutcome.err →
        copy_to_clipboard zuneW imgW [] = imageFallback imgW []) ∧
      (∀ c, copy_to_clipboard zuneW imgW [] = some c →
        c.bytes.length = c.width * c.height * 4) :=
  c3_copy_two_stage zuneW imgW []
    (by
      intro px i h
      injection h with h1 h2
      injection h2 with h2
      subst h1
      subst h2
      rfl)
    (by
      intro img h
      exact Except.noConfusion h)

/-- C3 counterexample: on a payload the zune-jpeg stage rejects and the
image-rs fallback decodes as a fully transparent 1 by 1 RGBA image, the
buffer handed to the clipboard has the claimed length width * height * 4
but its alpha byte is 0, not opaque — the fallback stage does not force
opaque alpha. -/
theorem c3_alpha_counterexample :
    zuneErrW [] = ZuneOutcome.err ∧
      copy_to_clipboard zuneErrW imgTransparentW [] =
        some ⟨1, 1, [0, 0, 0, 0], "image-rs".toList⟩ ∧
      ([0, 0, 0, 0] : List Nat).length = 1 * 1 * 4 ∧
      alphaOpaque [0, 0, 0, 0] = false :=
  ⟨rfl, rfl, rfl, rfl⟩

end FastSync
